import Mathlib

/-!
Verification of the BASF documentation download pipeline.

The repository contains two variants of the same scraper:
* `main.go` — ledger loaded into an in-memory URL set, name-based filename
  sanitizer, scheme-checking URL validator, immediate single retry after a
  429-signature error;
* a second source file (`part_000`) — ledger consulted by plain substring
  containment of the URL in the whole ledger text, SHA-256 based filename,
  `url.ParseRequestURI` validator, and a cooldown sleep without an immediate
  retry after a 429-signature error.

Both are shallowly embedded below.  Strings are Lean `String`s, the
filesystem is a list of existing paths, the ledger file is the list of its
appended lines (or its raw text for the `part_000` variant), and the network
is an oracle mapping the request counter and URL to a response.  Each
operation additionally returns the ordered trace of its observable side
effects (HTTP GETs, file writes, ledger appends, cooldown sleeps).
-/

/-! ### String primitives (models of Go `strings` helpers) -/

/-- `leadsWith pat l` is true iff `pat` is a prefix of `l`
(model of the prefix test underlying `strings.HasPrefix`). -/
def leadsWith : List Char → List Char → Bool
  | [], _ => true
  | _ :: _, [] => false
  | p :: ps, c :: cs => p == c && leadsWith ps cs

/-- `hasSub hay pat` is true iff `pat` occurs contiguously inside `hay`;
the empty pattern always occurs (model of Go `strings.Contains`). -/
def hasSub : List Char → List Char → Bool
  | [], pat => pat.isEmpty
  | c :: rest, pat => leadsWith pat (c :: rest) || hasSub rest pat

/-- Model of Go `strings.Contains` on `String`s. -/
def containsSubstr (s pat : String) : Bool := hasSub s.data pat.data

/-- ASCII lowercasing of a character list (model of `strings.ToLower` for the
ASCII data this program handles). -/
def lowerL (l : List Char) : List Char := l.map Char.toLower

/-- Drop trailing `'/'` characters. -/
def stripTrailSlashes (l : List Char) : List Char :=
  (l.reverse.dropWhile (· = '/')).reverse

/-- Model of Go `path/filepath.Join` for the shapes used by this program:
a nonempty directory (possibly with a trailing slash) joined with a relative
file name. -/
def joinPath (dir name : String) : String :=
  String.mk (stripTrailSlashes dir.data ++ '/' :: name.data)

/-! ### Model of Go `net/url` parsing

Only the fields the program inspects are modelled: the scheme and the host
(the host includes an optional port, as Go's `URL.Host` does).  The model
covers the fragment of `net/url.parse` exercised by this program's data:
ASCII URLs without percent-escapes or IPv6 literals.  `parseURL true`
models `url.ParseRequestURI`, `parseURL false` models `url.Parse` (whose
fragment split does not affect scheme or host for the inputs considered:
the fragment part is cut before parsing and parsed separately). -/

/-- Scheme and host of a parsed URL; the only `url.URL` fields this
program reads. -/
structure GoURL where
  scheme : List Char
  host : List Char
deriving DecidableEq, Repr

/-- Outcome of Go's `getScheme`. -/
inductive SchemeSplit where
  | malformed
  | noScheme
  | withScheme (scheme rest : List Char)
deriving DecidableEq, Repr

/-- ASCII letter test, as Go's `getScheme` performs on bytes. -/
def isAsciiLetter (c : Char) : Bool :=
  ('a' ≤ c && c ≤ 'z') || ('A' ≤ c && c ≤ 'Z')

/-- ASCII digit test. -/
def isAsciiDigit (c : Char) : Bool := '0' ≤ c && c ≤ '9'

/-- Model of `net/url.getScheme`: the scheme is a leading run of
`[a-zA-Z][a-zA-Z0-9+-.]*` terminated by `':'`; a leading `':'` is an error;
any other shape means the URL has no scheme. -/
def getSchemeAux (acc : List Char) : List Char → SchemeSplit
  | [] => .noScheme
  | c :: rest =>
    if isAsciiLetter c then getSchemeAux (acc ++ [c]) rest
    else if isAsciiDigit c || c = '+' || c = '-' || c = '.' then
      if acc = [] then .noScheme else getSchemeAux (acc ++ [c]) rest
    else if c = ':' then
      if acc = [] then .malformed else .withScheme acc rest
    else .noScheme

/-- Entry point of the `getScheme` model. -/
def getScheme (l : List Char) : SchemeSplit := getSchemeAux [] l

/-- Go `validOptionalPort`: empty, or `':'` followed by digits only. -/
def validOptionalPort : List Char → Bool
  | [] => true
  | ':' :: ds => ds.all isAsciiDigit
  | _ => false

/-- Position of the last `':'` of `l`, scanning as Go's
`strings.LastIndex(host, ":")`; returns the suffix from that colon. -/
def fromLastColon (l : List Char) : Option (List Char) :=
  match l with
  | [] => none
  | c :: rest =>
    match fromLastColon rest with
    | some suffix => some suffix
    | none => if c = ':' then some (c :: rest) else none

/-- Model of `net/url.parseAuthority` for non-IPv6 hosts: the userinfo up to
the last `'@'` is discarded (its character validation is not modelled — the
program's data has no userinfo) and a trailing `:port` must be numeric.
Returns the `Host` field (host including port) or `none` on error. -/
def parseAuthority (auth : List Char) : Option (List Char) :=
  -- split at the LAST '@': the host is what follows it
  let host := (auth.reverse.takeWhile (· ≠ '@')).reverse
  if leadsWith ['['] host then
    none  -- IPv6 literals are outside the modelled fragment
  else
    match fromLastColon host with
    | some portPart => if validOptionalPort portPart then some host else none
    | none => some host

/-- Control-character test of `net/url.stringContainsCTLByte`. -/
def hasCtlByte (l : List Char) : Bool :=
  l.any (fun c => c < ' ' || c = '\x7f')

/-- Model of `net/url.parse rawURL viaRequest` restricted to the scheme and
host fields.  `viaRequest = true` is `ParseRequestURI`; `false` is `Parse`.
Percent-escape validation of the path/query is not modelled (the program's
URLs contain none). -/
def parseURL (viaRequest : Bool) (raw : List Char) : Option GoURL :=
  if hasCtlByte raw then none
  else if raw = [] && viaRequest then none
  else if raw = ['*'] then some ⟨[], []⟩
  else
    match getScheme raw with
    | .malformed => none
    | s =>
      let scheme := lowerL (match s with | .withScheme sc _ => sc | _ => [])
      let rest := (match s with | .withScheme _ r => r | _ => raw)
      let rest := rest.takeWhile (· ≠ '?')  -- cut the query
      if ¬ leadsWith ['/'] rest then
        if scheme ≠ [] then some ⟨scheme, []⟩     -- opaque URL, no authority
        else if viaRequest then none               -- "invalid URI for request"
        else if (rest.takeWhile (· ≠ '/')).contains ':' then none
        else some ⟨[], []⟩
      else
        if (scheme ≠ [] || (¬ viaRequest && ¬ leadsWith ['/', '/', '/'] rest))
            && leadsWith ['/', '/'] rest then
          let authority := (rest.drop 2).takeWhile (· ≠ '/')
          match parseAuthority authority with
          | none => none
          | some host => some ⟨scheme, host⟩
        else some ⟨scheme, []⟩

/-- `isValidDownloadURL` from `main.go`: `url.Parse` must succeed, scheme and
host must be nonempty, and the lowercased scheme must be `http` or `https`. -/
def isValidDownloadURL (rawURL : String) : Bool :=
  match parseURL false rawURL.data with
  | none => false
  | some u =>
    if u.scheme = [] || u.host = [] then false
    else
      let scheme := lowerL u.scheme
      scheme = "http".data || scheme = "https".data

/-- `isUrlValid` from the `part_000` variant: `url.ParseRequestURI`
succeeds. -/
def isUrlValid (uri : String) : Bool := (parseURL true uri.data).isSome



/-! ### URL Extractor, `main.go` variant (`parseJSONForDownloads`)

The JSON decoding of `encoding/json` is not re-modelled: the extractor is
embedded as a function on the already-decoded structures, which mirror the
Go structs field for field. -/

/-- `PDFVariant` of `main.go`: one downloadable item of the page JSON. -/
structure PDFVariant where
  downloadURL : String
  fileName : String
deriving DecidableEq, Repr

/-- `ResultContainer` of `main.go`. -/
structure ResultContainer where
  variants : List PDFVariant
deriving DecidableEq, Repr

/-- `JSONDataRoot` of `main.go`. -/
structure JSONDataRoot where
  results : List ResultContainer
deriving DecidableEq, Repr

/-- `ValidDownloadItem` of `main.go`. -/
structure ValidDownloadItem where
  url : String
  fileName : String
deriving DecidableEq, Repr

/-- The flattened variant sequence a page's nested `results`/`variants`
loops traverse, in traversal order. -/
def joinVariants (data : JSONDataRoot) : List PDFVariant :=
  (data.results.map ResultContainer.variants).flatten

/-- The nested loop body of `parseJSONForDownloads`: `seen` is the key set of
the `seenURLs` map, `acc` the `uniqueDownloads` slice built so far. -/
def parseLoop : List String → List ValidDownloadItem → List PDFVariant →
    List ValidDownloadItem
  | _, acc, [] => acc
  | seen, acc, v :: vs =>
    if isValidDownloadURL v.downloadURL then
      if v.downloadURL ∈ seen then parseLoop seen acc vs
      else parseLoop (v.downloadURL :: seen)
        (acc ++ [⟨v.downloadURL, v.fileName⟩]) vs
    else parseLoop seen acc vs

/-- `parseJSONForDownloads` of `main.go` on decoded page data: keep variants
with a valid download URL, deduplicated by exact URL, first occurrence
winning. -/
def parseJSONForDownloads (data : JSONDataRoot) : List ValidDownloadItem :=
  parseLoop [] [] (joinVariants data)

/-! ### URL Extractor, `part_000` variant (`extractDownloadURLsFromJSON`) -/

/-- `Variant` of the `part_000` variant. -/
structure Variant0 where
  downloadURL : String
deriving DecidableEq, Repr

/-- `Result` of the `part_000` variant. -/
structure Result0 where
  variants : List Variant0
deriving DecidableEq, Repr

/-- `Data` of the `part_000` variant. -/
structure Data0 where
  results : List Result0
deriving DecidableEq, Repr

/-- Loop of `removeDuplicatesFromSlice`: `check` is the key set of its
`check` map. -/
def removeDupGo (check : List String) : List String → List String
  | [] => []
  | c :: rest =>
    if c ∈ check then removeDupGo check rest
    else c :: removeDupGo (c :: check) rest

/-- `removeDuplicatesFromSlice` of the `part_000` variant. -/
def removeDuplicatesFromSlice (slice : List String) : List String :=
  removeDupGo [] slice

/-- `extractDownloadURLsFromJSON` of the `part_000` variant: collect the
`ParseRequestURI`-valid URLs in traversal order, then deduplicate. -/
def extractDownloadURLsFromJSON (data : Data0) : List String :=
  removeDuplicatesFromSlice
    (((data.results.map Result0.variants).flatten.filter
      (fun v => isUrlValid v.downloadURL)).map Variant0.downloadURL)

/-! ### Filename Sanitizer, `main.go` variant (`urlToFilename`) -/

/-- Model of `path/filepath.Ext`: the suffix of the final slash-separated
element beginning at its last dot, empty when that element has no dot. -/
def fileExtAux : List Char → List Char → List Char
  | [], _ => []
  | c :: rest, acc =>
    if c = '/' then []
    else if c = '.' then c :: acc
    else fileExtAux rest (c :: acc)

/-- `getFileExtension` of `main.go` (`filepath.Ext`). -/
def getFileExtension (l : List Char) : List Char := fileExtAux l.reverse []

/-- Model of `path.Base`: `"."` for the empty path; otherwise drop trailing
slashes and keep the part after the last remaining slash (`"/"` when nothing
remains). -/
def getFileNameOnly (l : List Char) : List Char :=
  if l = [] then ['.']
  else
    let l1 := stripTrailSlashes l
    if l1 = [] then ['/']
    else (l1.reverse.takeWhile (· ≠ '/')).reverse

/-- Lowercase-alphanumeric test: the character class the sanitizer's regex
`[^a-z0-9]+` keeps. -/
def isLowerAlnum (c : Char) : Bool :=
  ('a' ≤ c && c ≤ 'z') || ('0' ≤ c && c ≤ '9')

/-- Model of `regexp.ReplaceAllString` with pattern `[^a-z0-9]+` and
replacement `"_"`: each maximal run of characters outside `[a-z0-9]` becomes
one underscore.  The flag records whether the previous character was part of
such a run. -/
def replaceRuns (inRun : Bool) : List Char → List Char
  | [] => []
  | c :: rest =>
    if isLowerAlnum c then c :: replaceRuns false rest
    else if inRun then replaceRuns true rest
    else '_' :: replaceRuns true rest

/-- Model of `regexp.ReplaceAllString` with pattern `_+` and replacement
`"_"`: collapse runs of underscores. -/
def collapseUnderscores (inRun : Bool) : List Char → List Char
  | [] => []
  | c :: rest =>
    if c = '_' then
      if inRun then collapseUnderscores true rest
      else '_' :: collapseUnderscores true rest
    else c :: collapseUnderscores false rest

/-- `removeSubstring` of `main.go` (`strings.ReplaceAll input toRemove ""`):
delete every non-overlapping occurrence of `toRemove`, scanning left to
right.  An empty `toRemove` leaves the input unchanged, as in Go. -/
def removeSubstringAux : Nat → List Char → List Char → List Char
  | 0, _, l => l
  | _ + 1, _, [] => []
  | fuel + 1, toRemove, c :: rest =>
    if toRemove ≠ [] && leadsWith toRemove (c :: rest) then
      removeSubstringAux fuel toRemove (rest.drop (toRemove.length - 1))
    else c :: removeSubstringAux fuel toRemove rest

/-- `removeSubstring` of `main.go`.  The fuel, initialised to the input
length, only bounds the recursion: every step consumes at least one input
character, so the fuel never runs out. -/
def removeSubstring (toRemove l : List Char) : List Char :=
  removeSubstringAux l.length toRemove l

/-- `urlToFilename` of `main.go` on character lists: lowercase, take base
name and extension, replace non-alphanumeric runs by `'_'`, collapse
underscores, trim one leading underscore, delete the redundant
`"_<ext>"` artifacts, and append the extension. -/
def urlToFilenameL (rawURL : List Char) : List Char :=
  let lowercaseURL := lowerL rawURL
  let ext := getFileExtension lowercaseURL
  let baseFilename := getFileNameOnly lowercaseURL
  let safe1 := replaceRuns false baseFilename
  let safe2 := collapseUnderscores false safe1
  let safe3 := if leadsWith ['_'] safe2 then safe2.drop 1 else safe2
  let invalidExt :=
    '_' :: (if leadsWith ['.'] ext then ext.drop 1 else ext)
  let safe4 := removeSubstring invalidExt safe3
  safe4 ++ ext

/-- `urlToFilename` of `main.go`. -/
def urlToFilename (rawURL : String) : String :=
  String.mk (urlToFilenameL rawURL.data)


/-! ### Filename Sanitizer, `part_000` variant (SHA-256 of the URL)

`generateHash` calls `crypto/sha256`; FIPS 180-4 SHA-256 is embedded below.
Its round constants are derived, as the standard defines them, from the
fractional parts of the square and cube roots of the first primes, rather
than transcribed. -/

/-- 2^32, the word modulus of SHA-256. -/
def w32 : Nat := 4294967296

/-- Trial-division primality test used only to generate the SHA-256
constant tables. -/
def isPrimeNat (n : Nat) : Bool :=
  2 ≤ n && (List.range n).all (fun d => d < 2 || n % d != 0)

/-- The first 64 primes (2 … 311), sources of the SHA-256 constants. -/
def first64Primes : List Nat := (List.range 312).filter isPrimeNat

/-- Bisection step for the integer cube root. -/
def cbrtGo : Nat → Nat → Nat → Nat → Nat
  | 0, _, lo, _ => lo
  | fuel + 1, n, lo, hi =>
    if hi ≤ lo + 1 then lo
    else
      let mid := (lo + hi) / 2
      if mid ^ 3 ≤ n then cbrtGo fuel n mid hi else cbrtGo fuel n lo mid

/-- Integer cube root (floor), by bisection. -/
def cbrt (n : Nat) : Nat := cbrtGo 200 n 0 (n + 1)

/-- Bisection step for the integer square root. -/
def isqrtGo : Nat → Nat → Nat → Nat → Nat
  | 0, _, lo, _ => lo
  | fuel + 1, n, lo, hi =>
    if hi ≤ lo + 1 then lo
    else
      let mid := (lo + hi) / 2
      if mid ^ 2 ≤ n then isqrtGo fuel n mid hi else isqrtGo fuel n lo mid

/-- Integer square root (floor), by bisection. -/
def isqrt (n : Nat) : Nat := isqrtGo 200 n 0 (n + 1)

/-- SHA-256 initial hash value: the first 32 fractional bits of the square
roots of the first 8 primes. -/
def sha256H0 : List Nat :=
  (first64Primes.take 8).map (fun p => isqrt (p * 2 ^ 64) % w32)

/-- SHA-256 round constants: the first 32 fractional bits of the cube roots
of the first 64 primes. -/
def sha256K : List Nat := first64Primes.map (fun p => cbrt (p * 2 ^ 96) % w32)

/-- Right rotation of a 32-bit word. -/
def rotr32 (n x : Nat) : Nat := ((x >>> n) ||| (x <<< (32 - n))) % w32

/-- SHA-256 σ₀. -/
def ssig0 (x : Nat) : Nat := rotr32 7 x ^^^ rotr32 18 x ^^^ (x >>> 3)

/-- SHA-256 σ₁. -/
def ssig1 (x : Nat) : Nat := rotr32 17 x ^^^ rotr32 19 x ^^^ (x >>> 10)

/-- SHA-256 Σ₀. -/
def bsig0 (x : Nat) : Nat := rotr32 2 x ^^^ rotr32 13 x ^^^ rotr32 22 x

/-- SHA-256 Σ₁. -/
def bsig1 (x : Nat) : Nat := rotr32 6 x ^^^ rotr32 11 x ^^^ rotr32 25 x

/-- SHA-256 Ch; the 32-bit complement is `x ^^^ (2^32 - 1)`. -/
def chF (x y z : Nat) : Nat := (x &&& y) ^^^ ((x ^^^ (w32 - 1)) &&& z)

/-- SHA-256 Maj. -/
def majF (x y z : Nat) : Nat := (x &&& y) ^^^ (x &&& z) ^^^ (y &&& z)

/-- UTF-8 encoding of one code point, as Go's `[]byte(string)` produces. -/
def utf8Bytes (c : Nat) : List Nat :=
  if c < 128 then [c]
  else if c < 2048 then [192 + c / 64, 128 + c % 64]
  else if c < 65536 then
    [224 + c / 4096, 128 + c / 64 % 64, 128 + c % 64]
  else
    [240 + c / 262144, 128 + c / 4096 % 64, 128 + c / 64 % 64, 128 + c % 64]

/-- A Lean string as its UTF-8 byte sequence. -/
def strBytes (s : String) : List Nat :=
  (s.data.map (fun c => utf8Bytes c.toNat)).flatten

/-- Big-endian 8-byte encoding of a number (the SHA-256 length field). -/
def be64 (n : Nat) : List Nat :=
  [n / 2 ^ 56 % 256, n / 2 ^ 48 % 256, n / 2 ^ 40 % 256, n / 2 ^ 32 % 256,
   n / 2 ^ 24 % 256, n / 2 ^ 16 % 256, n / 2 ^ 8 % 256, n % 256]

/-- SHA-256 padding: append `0x80`, zeros to 56 mod 64, and the big-endian
bit length. -/
def sha256Pad (msg : List Nat) : List Nat :=
  msg ++ 128 :: List.replicate ((64 - (msg.length + 9) % 64) % 64) 0
      ++ be64 (8 * msg.length)

/-- Split a byte list into 64-byte blocks.  The fuel, initialised to the
length, only bounds the recursion. -/
def chunks64Aux : Nat → List Nat → List (List Nat)
  | 0, _ => []
  | _ + 1, [] => []
  | fuel + 1, l => l.take 64 :: chunks64Aux fuel (l.drop 64)

/-- The 64-byte blocks of a padded message. -/
def chunks64 (l : List Nat) : List (List Nat) := chunks64Aux l.length l

/-- Big-endian 32-bit words of a block. -/
def toWords : List Nat → List Nat
  | a :: b :: c :: d :: rest => (((a * 256 + b) * 256 + c) * 256 + d) :: toWords rest
  | _ => []

/-- Message-schedule extension: append `steps` further words to `w`. -/
def extendW : Nat → List Nat → List Nat
  | 0, w => w
  | steps + 1, w =>
    let i := w.length
    let nw := (ssig1 (w.getD (i - 2) 0) + w.getD (i - 7) 0
        + ssig0 (w.getD (i - 15) 0) + w.getD (i - 16) 0) % w32
    extendW steps (w ++ [nw])

/-- The eight working variables of the SHA-256 compression loop. -/
structure Sha8 where
  a : Nat
  b : Nat
  c : Nat
  d : Nat
  e : Nat
  f : Nat
  g : Nat
  h : Nat
deriving DecidableEq, Repr

/-- One SHA-256 compression round, consuming one `(K, W)` pair. -/
def shaRound (st : Sha8) (kw : Nat × Nat) : Sha8 :=
  let t1 := (st.h + bsig1 st.e + chF st.e st.f st.g + kw.1 + kw.2) % w32
  let t2 := (bsig0 st.a + majF st.a st.b st.c) % w32
  ⟨(t1 + t2) % w32, st.a, st.b, st.c, (st.d + t1) % w32, st.e, st.f, st.g⟩

/-- SHA-256 compression of one block into the running hash value. -/
def compressBlock (hs : List Nat) (block : List Nat) : List Nat :=
  let w := extendW 48 (toWords block)
  let init : Sha8 :=
    ⟨hs.getD 0 0, hs.getD 1 0, hs.getD 2 0, hs.getD 3 0,
     hs.getD 4 0, hs.getD 5 0, hs.getD 6 0, hs.getD 7 0⟩
  let fin := (sha256K.zip w).foldl shaRound init
  [(hs.getD 0 0 + fin.a) % w32, (hs.getD 1 0 + fin.b) % w32,
   (hs.getD 2 0 + fin.c) % w32, (hs.getD 3 0 + fin.d) % w32,
   (hs.getD 4 0 + fin.e) % w32, (hs.getD 5 0 + fin.f) % w32,
   (hs.getD 6 0 + fin.g) % w32, (hs.getD 7 0 + fin.h) % w32]

/-- The lowercase hexadecimal digit of a nibble, as `encoding/hex`'s table
`"0123456789abcdef"` yields it: `'0'`–`'9'` then `'a'`–`'f'`. -/
def hexDigit (n : Nat) : Char :=
  if n < 10 then Char.ofNat (48 + n) else Char.ofNat (87 + n)

/-- Two hex characters of one byte. -/
def byteToHex (b : Nat) : List Char :=
  [hexDigit (b / 16 % 16), hexDigit (b % 16)]

/-- Big-endian bytes of a 32-bit word. -/
def wordBytes (w : Nat) : List Nat :=
  [w / 2 ^ 24 % 256, w / 2 ^ 16 % 256, w / 2 ^ 8 % 256, w % 256]

/-- SHA-256 of a string, as a lowercase hex string: the model of
`generateHash` (`sha256.Sum256` + `hex.EncodeToString`) of `part_000`. -/
def generateHash (input : String) : String :=
  let digest := (chunks64 (sha256Pad (strBytes input))).foldl compressBlock sha256H0
  String.mk ((digest.map wordBytes).flatten.map byteToHex).flatten

/-- `urlToFilename` of the `part_000` variant: the SHA-256 hex digest of the
URL, given a `.pdf` extension, lowercased. -/
def urlToFilename0 (rawURL : String) : String :=
  let sanitized := generateHash rawURL
  let sanitized :=
    if getFileExtension sanitized.data ≠ ".pdf".data then sanitized ++ ".pdf"
    else sanitized
  String.mk (lowerL sanitized.data)


/-! ### Item Fetcher, `main.go` variant (`downloadPDFFile`)

The network is modelled by the response one HTTP GET of the item's URL
would produce; the function reports, besides the final state and the
returned error, the ordered trace of its observable side effects.  Local
file creation and writing can also fail (`os.Create`, `buffer.WriteTo`);
the two booleans say whether they succeed.  A created file is on disk even
when the subsequent write fails, matching a crash mid-write. -/

/-- The outcome a single HTTP GET would have. -/
inductive NetResult where
  /-- transport error of `client.Get` -/
  | netErr (msg : String)
  /-- a response: numeric status code, status line text (Go `resp.Status`,
  e.g. `"429 Too Many Requests"`), `Content-Type` header, and body, which
  either fails to read or yields a byte count -/
  | resp (status : Nat) (statusText : String) (contentType : String)
      (body : Except String Nat)
deriving Repr

/-- One observable side effect of the pipeline. -/
inductive Event where
  | httpGet (url : String)
  | fileWrite (path : String)
  | ledgerAppend (line : String)
  | sleepMin (minutes : Nat)
deriving DecidableEq, Repr

/-- Mutable world of the `main.go` variant: the set of existing file paths,
the lines of `download.txt`, and the in-memory `alreadyDownloaded` URL set. -/
structure WorldState where
  disk : List String
  ledgerFile : List String
  ledgerSet : List String
deriving DecidableEq, Repr

/-- Result of one `downloadPDFFile` call: final world, returned error
(`none` is Go's `nil`), and the effect trace. -/
structure StepResult where
  state : WorldState
  err : Option String
  events : List Event
deriving DecidableEq, Repr

/-- Number of HTTP GETs in a trace. -/
def countGets (evs : List Event) : Nat :=
  evs.countP (fun e => match e with | .httpGet _ => true | _ => false)

/-- Number of cooldown sleeps in a trace. -/
def countSleeps (evs : List Event) : Nat :=
  evs.countP (fun e => match e with | .sleepMin _ => true | _ => false)

/-- `downloadPDFFile` of `main.go`.  `fetch` is what the single HTTP GET
would return; `createOk`/`writeOk` say whether `os.Create` and the buffer
write to the created file succeed. -/
def downloadPDFFile (fetch : NetResult) (createOk writeOk : Bool)
    (finalURL outputDirectory filename _logFilePath : String)
    (st : WorldState) : StepResult :=
  let filename := urlToFilename filename
  let filePath := joinPath outputDirectory filename
  if finalURL ∈ st.ledgerSet then
    ⟨st, none, []⟩
  else if filePath ∈ st.disk then
    let line := finalURL ++ " → " ++ filePath
    ⟨{ st with
        ledgerFile := st.ledgerFile ++ [line]
        ledgerSet := st.ledgerSet ++ [finalURL] },
      none, [.ledgerAppend line]⟩
  else
    match fetch with
    | .netErr msg =>
      ⟨st, some ("failed to download " ++ finalURL ++ ": " ++ msg),
        [.httpGet finalURL]⟩
    | .resp status statusText contentType body =>
      if status ≠ 200 then
        ⟨st, some ("download failed for " ++ finalURL ++ ": " ++ statusText),
          [.httpGet finalURL]⟩
      else if ¬ containsSubstr contentType "application/pdf" then
        ⟨st, some ("invalid content type for " ++ finalURL ++ ": "
            ++ contentType ++ " (expected application/pdf)"),
          [.httpGet finalURL]⟩
      else
        match body with
        | .error msg =>
          ⟨st, some ("failed to read PDF data from " ++ finalURL ++ ": " ++ msg),
            [.httpGet finalURL]⟩
        | .ok written =>
          if written = 0 then
            ⟨st, some ("downloaded 0 bytes for " ++ finalURL
                ++ ", not creating file"),
              [.httpGet finalURL]⟩
          else if ¬ createOk then
            ⟨st, some ("failed to create file " ++ filePath),
              [.httpGet finalURL]⟩
          else if ¬ writeOk then
            ⟨{ st with disk := st.disk ++ [filePath] },
              some ("failed to write PDF to file " ++ filePath),
              [.httpGet finalURL, .fileWrite filePath]⟩
          else
            let line := finalURL ++ " → " ++ filePath
            ⟨{ st with
                disk := st.disk ++ [filePath]
                ledgerFile := st.ledgerFile ++ [line]
                ledgerSet := st.ledgerSet ++ [finalURL] },
              none,
              [.httpGet finalURL, .fileWrite filePath, .ledgerAppend line]⟩

/-! ### Page Orchestrator, `main.go` variant

The network oracle maps the global GET counter and the URL to the response
that GET receives, so a retry may observe a different answer than the first
attempt. -/

/-- The inner download loop body of `main`: one item, with the
429-signature single retry (`strings.Contains(err.Error(), "429")`,
3-minute sleep, one further `downloadPDFFile` call whose error is only
logged).  Returns the new world, the new GET counter and the trace. -/
def processItem (net : Nat → String → NetResult) (createOk writeOk : Bool)
    (k : Nat) (item : ValidDownloadItem) (st : WorldState) :
    WorldState × Nat × List Event :=
  let r1 := downloadPDFFile (net k item.url) createOk writeOk
      item.url "PDFs" item.fileName "download.txt" st
  let k1 := k + countGets r1.events
  match r1.err with
  | none => (r1.state, k1, r1.events)
  | some e =>
    if containsSubstr e "429" then
      let r2 := downloadPDFFile (net k1 item.url) createOk writeOk
          item.url "PDFs" item.fileName "download.txt" r1.state
      (r2.state, k1 + countGets r2.events,
        r1.events ++ [.sleepMin 3] ++ r2.events)
    else (r1.state, k1, r1.events)

/-- The inner download loop of `main` over a page's extracted items. -/
def processItems (net : Nat → String → NetResult) (createOk writeOk : Bool) :
    Nat → List ValidDownloadItem → WorldState → WorldState × Nat × List Event
  | k, [], st => (st, k, [])
  | k, item :: rest, st =>
    let r1 := processItem net createOk writeOk k item st
    let r2 := processItems net createOk writeOk r1.2.1 rest r1.1
    (r2.1, r2.2.1, r1.2.2 ++ r2.2.2)

/-- The page loop of `main` restricted to its download phase: each page's
decoded JSON is extracted and its items fetched in order.  (The page JSON
itself is read from the local `basf_<n>.json` cache; fetching that cache is
outside the download loop and performs no item GETs.) -/
def runPages (net : Nat → String → NetResult) (createOk writeOk : Bool) :
    Nat → List JSONDataRoot → WorldState → WorldState × Nat × List Event
  | k, [], st => (st, k, [])
  | k, page :: rest, st =>
    let r1 := processItems net createOk writeOk k (parseJSONForDownloads page) st
    let r2 := runPages net createOk writeOk r1.2.1 rest r1.1
    (r2.1, r2.2.1, r1.2.2 ++ r2.2.2)

/-! ### Item Fetcher and download loop, `part_000` variant

This variant has no in-memory set: each resume check reads the whole ledger
file and tests `strings.Contains(fileRead, url)` — plain substring
containment of the URL in the entire ledger text. -/

/-- Mutable world of the `part_000` variant: the existing file paths and the
raw text of `download.txt` (empty when the file does not exist). -/
structure World0 where
  disk : List String
  ledgerText : String
deriving DecidableEq, Repr

/-- `downloadPDF` of the `part_000` variant.  Differences from `main.go`'s
`downloadPDFFile`: the resume check against the ledger is substring
containment in the file text, read once at entry; the file-exists branch
returns a non-nil error; a successful download appends a ledger line only
when the URL is not already a substring of the text read at entry. -/
def downloadPDF0 (fetch : NetResult) (createOk writeOk : Bool)
    (finalURL outputDir _downloadURLFile : String)
    (st : World0) : World0 × Option String × List Event :=
  let fileRead := st.ledgerText
  let rawFilename := urlToFilename0 finalURL
  let filename := String.mk (lowerL rawFilename.data)
  let filePath := joinPath outputDir filename
  if filePath ∈ st.disk then
    let skipMsg := "file already exists, skipping: " ++ filePath
        ++ " (URL: " ++ finalURL ++ ")"
    if containsSubstr fileRead finalURL then
      (st, some skipMsg, [])
    else
      ({ st with ledgerText :=
          st.ledgerText ++ finalURL ++ " → " ++ filePath ++ "\n" },
        some skipMsg, [.ledgerAppend (finalURL ++ " → " ++ filePath)])
  else
    match fetch with
    | .netErr msg =>
      (st, some ("failed to download " ++ finalURL ++ ": " ++ msg),
        [.httpGet finalURL])
    | .resp status statusText contentType body =>
      if status ≠ 200 then
        (st, some ("download failed for " ++ finalURL ++ ": " ++ statusText),
          [.httpGet finalURL])
      else if ¬ containsSubstr contentType "application/pdf" then
        (st, some ("invalid content type for " ++ finalURL ++ ": "
            ++ contentType ++ " (expected application/pdf)"),
          [.httpGet finalURL])
      else
        match body with
        | .error msg =>
          (st, some ("failed to read PDF data from " ++ finalURL ++ ": " ++ msg),
            [.httpGet finalURL])
        | .ok written =>
          if written = 0 then
            (st, some ("downloaded 0 bytes for " ++ finalURL
                ++ ", not creating file"),
              [.httpGet finalURL])
          else if ¬ createOk then
            (st, some ("failed to create file " ++ filePath),
              [.httpGet finalURL])
          else if ¬ writeOk then
            ({ st with disk := st.disk ++ [filePath] },
              some ("failed to write PDF to file " ++ filePath),
              [.httpGet finalURL, .fileWrite filePath])
          else if containsSubstr fileRead finalURL then
            ({ st with disk := st.disk ++ [filePath] }, none,
              [.httpGet finalURL, .fileWrite filePath])
          else
            ({ disk := st.disk ++ [filePath]
               ledgerText := st.ledgerText ++ finalURL ++ " → " ++ filePath ++ "\n" },
              none,
              [.httpGet finalURL, .fileWrite filePath,
               .ledgerAppend (finalURL ++ " → " ++ filePath)])

/-- One iteration of the `part_000` download loop: the item is processed only
when the URL is not a substring of the current ledger text; on an error whose
text contains `"429"` the loop re-appends the URL to a discarded copy of the
slice and sleeps 3 minutes — it performs no further `downloadPDF` call within
the iteration (and the range loop never revisits the item). -/
def part0ProcessItem (net : Nat → String → NetResult) (createOk writeOk : Bool)
    (k : Nat) (url : String) (st : World0) : World0 × Nat × List Event :=
  let fileRead := st.ledgerText
  if ¬ containsSubstr fileRead url then
    let (st1, err, ev) := downloadPDF0 (net k url) createOk writeOk
        url "PDFs/" "download.txt" st
    let k1 := k + countGets ev
    match err with
    | none => (st1, k1, ev)
    | some e =>
      if containsSubstr e "429" then (st1, k1, ev ++ [.sleepMin 3])
      else (st1, k1, ev)
  else (st, k, [])


/-! ### Auxiliary definitions used by the claim theorems -/

/-- The pre-validation failures of one fetch attempt: transport-level
success but non-200 status, `Content-Type` without `application/pdf`, body
read error, or zero-byte body. -/
def earlyFailure : NetResult → Bool
  | .netErr _ => false
  | .resp status _ contentType body =>
    status ≠ 200 || ¬ containsSubstr contentType "application/pdf" ||
      (match body with | .error _ => true | .ok written => written = 0)

/-- The first `downloadPDFFile` attempt the `main.go` download loop makes
for an item, at GET counter `k`. -/
def firstTry (net : Nat → String → NetResult) (createOk writeOk : Bool)
    (k : Nat) (item : ValidDownloadItem) (st : WorldState) : StepResult :=
  downloadPDFFile (net k item.url) createOk writeOk item.url "PDFs"
    item.fileName "download.txt" st

/-- The retry attempt after a 429-signature failure: the same item, against
the state and GET counter the first attempt left. -/
def retryTry (net : Nat → String → NetResult) (createOk writeOk : Bool)
    (k : Nat) (item : ValidDownloadItem) (st : WorldState) : StepResult :=
  firstTry net createOk writeOk
    (k + countGets (firstTry net createOk writeOk k item st).events) item
    (firstTry net createOk writeOk k item st).state

/-- Concrete network for the C3 witness: the first GET is rate-limited with
status 429, every later GET serves a valid PDF. -/
def c3net : Nat → String → NetResult := fun k _ =>
  if k = 0 then .resp 429 "429 Too Many Requests" "text/html" (.ok 3)
  else .resp 200 "200 OK" "application/pdf" (.ok 5)

/-- Concrete item for the C3 witness. -/
def c3item : ValidDownloadItem := ⟨"https://host/a.pdf", "a.pdf"⟩

/-- The one-page upstream data of the C1 counterexample. -/
def c1Pages : List JSONDataRoot := [⟨[⟨[⟨"https://host/a.pdf", "a.pdf"⟩]⟩]⟩]

/-- The network of the C1 counterexample: this item's GET always returns
status 404 (the page JSON cache is already local, so only item GETs occur). -/
def c1Net : Nat → String → NetResult :=
  fun _ _ => .resp 404 "404 Not Found" "text/html" (.ok 1)


/-! ### Sanity checks of the embedding on concrete inputs -/

example : joinPath "PDFs" "a.pdf" = "PDFs/a.pdf" := by decide
example : joinPath "PDFs/" "a.pdf" = "PDFs/a.pdf" := by decide
example : containsSubstr "download failed for x: 429 Too Many" "429" = true := by decide
example : containsSubstr "abc" "" = true := by decide
example : containsSubstr "" "x" = false := by decide

example : isValidDownloadURL "https://host/file.pdf" = true := by decide
example : isValidDownloadURL "http://a.com:8080/x" = true := by decide
example : isValidDownloadURL "ftp://x/y.pdf" = false := by decide
example : isValidDownloadURL "" = false := by decide
example : isValidDownloadURL "mailto:someone" = false := by decide
example : isValidDownloadURL "/rooted/path" = false := by decide
example : isUrlValid "ftp://x/y.pdf" = true := by decide
example : isUrlValid "https://host/file.pdf" = true := by decide
example : isUrlValid "" = false := by decide
example : isUrlValid "relative/path" = false := by decide

example : urlToFilename "https://a.com/file.pdf" = "file.pdf" := by decide
example : urlToFilename "https://b.com/other/file.pdf" = "file.pdf" := by decide
example : urlToFilename "My Doc (final).PDF" = "my_doc_final.pdf" := by decide
example : urlToFilename "https://host/doc" = "doc" := by decide

set_option maxRecDepth 100000 in
/-- Sanity check of the SHA-256 embedding against the FIPS 180-4 "abc" test
vector. -/
theorem generateHash_abc_vector :
    generateHash "abc" =
      "ba7816bf8f01cfea414140de5dae2223b00361a396177a9cb410ff61f20015ad" := by
  decide


/-! ### Helper lemmas about `downloadPDFFile` -/

/-- Ledger hit: `downloadPDFFile` returns immediately with no effects. -/
theorem dl_ledger_hit (fetch : NetResult) (createOk writeOk : Bool)
    (finalURL outputDirectory filename logFilePath : String) (st : WorldState)
    (h : finalURL ∈ st.ledgerSet) :
    downloadPDFFile fetch createOk writeOk finalURL outputDirectory filename
      logFilePath st = ⟨st, none, []⟩ := by
  simp [downloadPDFFile, h]

/-- File on disk, URL unrecorded: `downloadPDFFile` records the entry and
performs no GET. -/
theorem dl_file_exists (fetch : NetResult) (createOk writeOk : Bool)
    (finalURL outputDirectory filename logFilePath : String) (st : WorldState)
    (h1 : finalURL ∉ st.ledgerSet)
    (h2 : joinPath outputDirectory (urlToFilename filename) ∈ st.disk) :
    downloadPDFFile fetch createOk writeOk finalURL outputDirectory filename
      logFilePath st =
      ⟨⟨st.disk,
        st.ledgerFile ++ [finalURL ++ " → "
          ++ joinPath outputDirectory (urlToFilename filename)],
        st.ledgerSet ++ [finalURL]⟩,
       none,
       [.ledgerAppend (finalURL ++ " → "
          ++ joinPath outputDirectory (urlToFilename filename))]⟩ := by
  simp [downloadPDFFile, h1, h2]

/-- A single `downloadPDFFile` call never sleeps. -/
theorem dl_no_sleep (fetch : NetResult) (createOk writeOk : Bool)
    (finalURL outputDirectory filename logFilePath : String) (st : WorldState) :
    countSleeps (downloadPDFFile fetch createOk writeOk finalURL
      outputDirectory filename logFilePath st).events = 0 := by
  unfold downloadPDFFile
  repeat' split
  all_goals by_cases hd : joinPath outputDirectory (urlToFilename filename) ∈ st.disk <;>
    simp [hd, countSleeps]

/-- A single `downloadPDFFile` call performs at most one GET. -/
theorem dl_gets_le_one (fetch : NetResult) (createOk writeOk : Bool)
    (finalURL outputDirectory filename logFilePath : String) (st : WorldState) :
    countGets (downloadPDFFile fetch createOk writeOk finalURL
      outputDirectory filename logFilePath st).events ≤ 1 := by
  unfold downloadPDFFile
  repeat' split
  all_goals by_cases hd : joinPath outputDirectory (urlToFilename filename) ∈ st.disk <;>
    simp [hd, countGets]

/-! ### Claim C4 — Ledger-hit fast path -/

/-- C4: if the item's URL is already in the in-memory Ledger set, the fetch
returns the skip outcome (`nil` error) immediately, with no HTTP request, no
file write, no Ledger append, and the world unchanged. -/
theorem c4_ledger_hit_fast_path (fetch : NetResult) (createOk writeOk : Bool)
    (finalURL outputDirectory filename logFilePath : String) (st : WorldState)
    (h : finalURL ∈ st.ledgerSet) :
    downloadPDFFile fetch createOk writeOk finalURL outputDirectory filename
      logFilePath st = ⟨st, none, []⟩ :=
  dl_ledger_hit fetch createOk writeOk finalURL outputDirectory filename
    logFilePath st h

/-- Witness for C4 at a concrete input. -/
theorem c4_ledger_hit_fast_path_witness :
    "https://host/a.pdf" ∈
        (⟨[], [], ["https://host/a.pdf"]⟩ : WorldState).ledgerSet ∧
    downloadPDFFile (.netErr "unreachable") true true "https://host/a.pdf"
        "PDFs" "a.pdf" "download.txt" ⟨[], [], ["https://host/a.pdf"]⟩ =
      ⟨⟨[], [], ["https://host/a.pdf"]⟩, none, []⟩ :=
  ⟨by decide,
   c4_ledger_hit_fast_path (.netErr "unreachable") true true
     "https://host/a.pdf" "PDFs" "a.pdf" "download.txt"
     ⟨[], [], ["https://host/a.pdf"]⟩ (by decide)⟩

/-! ### Claim C5 — Ledger-disk reconciliation -/

/-- C5: if the URL is absent from the Ledger set but the derived local file
exists on disk, the fetch performs no HTTP request, returns the
success-without-fetch outcome (`nil` error), appends exactly one Ledger line
for the URL, and adds the URL to the in-memory set. -/
theorem c5_ledger_disk_reconciliation (fetch : NetResult)
    (createOk writeOk : Bool)
    (finalURL outputDirectory filename logFilePath : String) (st : WorldState)
    (h1 : finalURL ∉ st.ledgerSet)
    (h2 : joinPath outputDirectory (urlToFilename filename) ∈ st.disk) :
    downloadPDFFile fetch createOk writeOk finalURL outputDirectory filename
      logFilePath st =
      ⟨⟨st.disk,
        st.ledgerFile ++ [finalURL ++ " → "
          ++ joinPath outputDirectory (urlToFilename filename)],
        st.ledgerSet ++ [finalURL]⟩,
       none,
       [.ledgerAppend (finalURL ++ " → "
          ++ joinPath outputDirectory (urlToFilename filename))]⟩ :=
  dl_file_exists fetch createOk writeOk finalURL outputDirectory filename
    logFilePath st h1 h2

/-- Witness for C5 at a concrete input. -/
theorem c5_ledger_disk_reconciliation_witness :
    "https://host/a.pdf" ∉ (⟨["PDFs/a.pdf"], [], []⟩ : WorldState).ledgerSet ∧
    joinPath "PDFs" (urlToFilename "a.pdf") ∈
        (⟨["PDFs/a.pdf"], [], []⟩ : WorldState).disk ∧
    downloadPDFFile (.netErr "unreachable") true true "https://host/a.pdf"
        "PDFs" "a.pdf" "download.txt" ⟨["PDFs/a.pdf"], [], []⟩ =
      ⟨⟨["PDFs/a.pdf"], ["https://host/a.pdf → PDFs/a.pdf"],
        ["https://host/a.pdf"]⟩,
       none, [.ledgerAppend "https://host/a.pdf → PDFs/a.pdf"]⟩ :=
  ⟨by decide, by decide,
   by
    have h := c5_ledger_disk_reconciliation (.netErr "unreachable") true true
      "https://host/a.pdf" "PDFs" "a.pdf" "download.txt"
      ⟨["PDFs/a.pdf"], [], []⟩ (by decide) (by decide)
    simpa using h⟩

/-! ### Claim C8 — Failure atomicity of a single fetch -/


/-- C8: a fetch attempt that fails before the body is validated (non-200
status, wrong content type, body read error or empty body) creates no file,
appends no Ledger entry, returns an error, and its trace is exactly the one
HTTP GET: the world is exactly as before the attempt. -/
theorem c8_early_failure_atomic (fetch : NetResult) (createOk writeOk : Bool)
    (finalURL outputDirectory filename logFilePath : String) (st : WorldState)
    (h1 : finalURL ∉ st.ledgerSet)
    (h2 : joinPath outputDirectory (urlToFilename filename) ∉ st.disk)
    (h3 : earlyFailure fetch = true) :
    (downloadPDFFile fetch createOk writeOk finalURL outputDirectory filename
        logFilePath st).state = st
    ∧ (downloadPDFFile fetch createOk writeOk finalURL outputDirectory filename
        logFilePath st).err ≠ none
    ∧ (downloadPDFFile fetch createOk writeOk finalURL outputDirectory filename
        logFilePath st).events = [.httpGet finalURL] := by
  cases fetch with
  | netErr m => simp [earlyFailure] at h3
  | resp status statusText ct body =>
    by_cases hs : status = 200
    · by_cases hct : containsSubstr ct "application/pdf"
      · cases body with
        | error m => simp [downloadPDFFile, h1, h2, hs, hct]
        | ok written =>
          have hw : written = 0 := by
            simpa [earlyFailure, hs, hct] using h3
          simp [downloadPDFFile, h1, h2, hs, hct, hw]
      · simp [downloadPDFFile, h1, h2, hs, hct]
    · simp [downloadPDFFile, h1, h2, hs]

/-- Witness for C8 at a concrete input: a 404 response. -/
theorem c8_early_failure_atomic_witness :
    "https://host/a.pdf" ∉ (⟨[], [], []⟩ : WorldState).ledgerSet ∧
    joinPath "PDFs" (urlToFilename "a.pdf") ∉ (⟨[], [], []⟩ : WorldState).disk ∧
    earlyFailure (.resp 404 "404 Not Found" "text/html" (.ok 9)) = true ∧
    ((downloadPDFFile (.resp 404 "404 Not Found" "text/html" (.ok 9)) true true
        "https://host/a.pdf" "PDFs" "a.pdf" "download.txt"
        ⟨[], [], []⟩).state = ⟨[], [], []⟩
      ∧ (downloadPDFFile (.resp 404 "404 Not Found" "text/html" (.ok 9)) true
          true "https://host/a.pdf" "PDFs" "a.pdf" "download.txt"
          ⟨[], [], []⟩).err ≠ none
      ∧ (downloadPDFFile (.resp 404 "404 Not Found" "text/html" (.ok 9)) true
          true "https://host/a.pdf" "PDFs" "a.pdf" "download.txt"
          ⟨[], [], []⟩).events = [.httpGet "https://host/a.pdf"]) :=
  ⟨by decide, by decide, by decide,
   c8_early_failure_atomic (.resp 404 "404 Not Found" "text/html" (.ok 9))
     true true "https://host/a.pdf" "PDFs" "a.pdf" "download.txt"
     ⟨[], [], []⟩ (by decide) (by decide) (by decide)⟩

/-! ### Claim C2 — file written strictly before the Ledger entry -/

/-- A trace consisting of one GET contains no ledger append. -/
theorem no_append_in_single_get (u : String) (pre post : List Event)
    (line : String)
    (h : [Event.httpGet u] = pre ++ Event.ledgerAppend line :: post) : False := by
  have hm : Event.ledgerAppend line ∈ [Event.httpGet u] := by
    rw [h]
    exact List.mem_append_right _ (List.mem_cons_self _ _)
  simp at hm

/-- A trace of one GET and one file write contains no ledger append. -/
theorem no_append_in_get_write (u p : String) (pre post : List Event)
    (line : String)
    (h : [Event.httpGet u, Event.fileWrite p]
        = pre ++ Event.ledgerAppend line :: post) : False := by
  have hm : Event.ledgerAppend line ∈ [Event.httpGet u, Event.fileWrite p] := by
    rw [h]
    exact List.mem_append_right _ (List.mem_cons_self _ _)
  simp at hm

/-- In the successful trace the file write precedes the ledger append. -/
theorem write_before_append_in_success (u p l : String)
    (pre post : List Event) (line : String)
    (h : [Event.httpGet u, Event.fileWrite p, Event.ledgerAppend l]
        = pre ++ Event.ledgerAppend line :: post) :
    Event.fileWrite p ∈ pre := by
  rcases pre with _ | ⟨a, pre⟩
  · simp at h
  · rcases pre with _ | ⟨b, pre⟩
    · simp at h
    · rcases pre with _ | ⟨c, pre⟩
      · simp only [List.cons_append, List.nil_append, List.cons.injEq] at h
        obtain ⟨-, hb, -⟩ := h
        simp [← hb]
      · simp only [List.cons_append, List.cons.injEq] at h
        obtain ⟨-, -, -, hrest⟩ := h
        have hrest2 := hrest.symm
        simp at hrest2

/-- C2: in every single-item fetch, a Ledger append for the item can occur in
the trace only when the file already existed on disk before the call or a
write of the item's file precedes the append; moreover every URL in the
final Ledger set was either there before or is this item's URL with its file
present on disk at record time. -/
theorem c2_file_written_before_ledger_entry (fetch : NetResult)
    (createOk writeOk : Bool)
    (finalURL outputDirectory filename logFilePath : String) (st : WorldState) :
    (∀ pre post line,
        (downloadPDFFile fetch createOk writeOk finalURL outputDirectory
            filename logFilePath st).events
          = pre ++ Event.ledgerAppend line :: post →
        joinPath outputDirectory (urlToFilename filename) ∈ st.disk
          ∨ Event.fileWrite (joinPath outputDirectory (urlToFilename filename))
              ∈ pre)
    ∧ (∀ u, u ∈ (downloadPDFFile fetch createOk writeOk finalURL
          outputDirectory filename logFilePath st).state.ledgerSet →
        u ∈ st.ledgerSet
          ∨ (u = finalURL
              ∧ joinPath outputDirectory (urlToFilename filename)
                  ∈ (downloadPDFFile fetch createOk writeOk finalURL
                      outputDirectory filename logFilePath st).state.disk)) := by
  by_cases h1 : finalURL ∈ st.ledgerSet
  · rw [dl_ledger_hit _ _ _ _ _ _ _ _ h1]
    exact ⟨fun pre post line h => absurd h (by simp),
           fun u hu => Or.inl hu⟩
  · by_cases h2 : joinPath outputDirectory (urlToFilename filename) ∈ st.disk
    · rw [dl_file_exists _ _ _ _ _ _ _ _ h1 h2]
      refine ⟨fun pre post line _ => Or.inl h2, fun u hu => ?_⟩
      have hu2 : u ∈ st.ledgerSet ∨ u = finalURL := by simpa using hu
      rcases hu2 with hu' | hu'
      · exact Or.inl hu'
      · exact Or.inr ⟨hu', h2⟩
    · cases fetch with
      | netErr m =>
        simp only [downloadPDFFile, h1, h2, if_neg, ite_false]
        refine ⟨fun pre post line h => ?_, fun u hu => Or.inl ?_⟩
        · exact absurd h (fun h => no_append_in_single_get _ _ _ _ h)
        · simpa [h1, h2] using hu
      | resp status statusText ct body =>
        by_cases hs : status = 200
        · by_cases hct : containsSubstr ct "application/pdf"
          · cases body with
            | error m =>
              refine ⟨fun pre post line h => ?_, fun u hu => Or.inl ?_⟩
              · rw [show (downloadPDFFile (.resp status statusText ct
                    (.error m)) createOk writeOk finalURL outputDirectory
                    filename logFilePath st).events
                      = [Event.httpGet finalURL] by
                  simp [downloadPDFFile, h1, h2, hs, hct]] at h
                exact absurd h (fun h => no_append_in_single_get _ _ _ _ h)
              · have : (downloadPDFFile (.resp status statusText ct
                    (.error m)) createOk writeOk finalURL outputDirectory
                    filename logFilePath st).state = st := by
                  simp [downloadPDFFile, h1, h2, hs, hct]
                rwa [this] at hu
            | ok written =>
              by_cases hw : written = 0
              · refine ⟨fun pre post line h => ?_, fun u hu => Or.inl ?_⟩
                · rw [show (downloadPDFFile (.resp status statusText ct
                      (.ok written)) createOk writeOk finalURL outputDirectory
                      filename logFilePath st).events
                        = [Event.httpGet finalURL] by
                    simp [downloadPDFFile, h1, h2, hs, hct, hw]] at h
                  exact absurd h (fun h => no_append_in_single_get _ _ _ _ h)
                · have : (downloadPDFFile (.resp status statusText ct
                      (.ok written)) createOk writeOk finalURL outputDirectory
                      filename logFilePath st).state = st := by
                    simp [downloadPDFFile, h1, h2, hs, hct, hw]
                  rwa [this] at hu
              · by_cases hc : createOk
                · by_cases hwr : writeOk
                  · -- success: GET, write, append
                    refine ⟨fun pre post line h => ?_, fun u hu => ?_⟩
                    · rw [show (downloadPDFFile (.resp status statusText ct
                          (.ok written)) createOk writeOk finalURL
                          outputDirectory filename logFilePath st).events
                            = [Event.httpGet finalURL,
                               Event.fileWrite (joinPath outputDirectory
                                 (urlToFilename filename)),
                               Event.ledgerAppend (finalURL ++ " → "
                                 ++ joinPath outputDirectory
                                   (urlToFilename filename))] by
                        simp [downloadPDFFile, h1, h2, hs, hct, hw, hc, hwr]] at h
                      exact Or.inr
                        (write_before_append_in_success _ _ _ _ _ _ h)
                    · have hst : (downloadPDFFile (.resp status statusText ct
                          (.ok written)) createOk writeOk finalURL
                          outputDirectory filename logFilePath st).state
                            = ⟨st.disk ++ [joinPath outputDirectory
                                (urlToFilename filename)],
                               st.ledgerFile ++ [finalURL ++ " → "
                                 ++ joinPath outputDirectory
                                   (urlToFilename filename)],
                               st.ledgerSet ++ [finalURL]⟩ := by
                        simp [downloadPDFFile, h1, h2, hs, hct, hw, hc, hwr]
                      rw [hst] at hu
                      have hu2 : u ∈ st.ledgerSet ∨ u = finalURL := by
                        simpa using hu
                      rcases hu2 with hu' | hu'
                      · exact Or.inl hu'
                      · refine Or.inr ⟨hu', ?_⟩
                        rw [hst]
                        simp
                  · -- create succeeded, write failed: GET, write, no append
                    refine ⟨fun pre post line h => ?_, fun u hu => Or.inl ?_⟩
                    · rw [show (downloadPDFFile (.resp status statusText ct
                          (.ok written)) createOk writeOk finalURL
                          outputDirectory filename logFilePath st).events
                            = [Event.httpGet finalURL,
                               Event.fileWrite (joinPath outputDirectory
                                 (urlToFilename filename))] by
                        simp [downloadPDFFile, h1, h2, hs, hct, hw, hc, hwr]] at h
                      exact absurd h
                        (fun h => no_append_in_get_write _ _ _ _ _ h)
                    · have : (downloadPDFFile (.resp status statusText ct
                          (.ok written)) createOk writeOk finalURL
                          outputDirectory filename logFilePath st).state.ledgerSet
                            = st.ledgerSet := by
                        simp [downloadPDFFile, h1, h2, hs, hct, hw, hc, hwr]
                      rwa [this] at hu
                · -- create failed: GET only
                  refine ⟨fun pre post line h => ?_, fun u hu => Or.inl ?_⟩
                  · rw [show (downloadPDFFile (.resp status statusText ct
                        (.ok written)) createOk writeOk finalURL
                        outputDirectory filename logFilePath st).events
                          = [Event.httpGet finalURL] by
                      simp [downloadPDFFile, h1, h2, hs, hct, hw, hc]] at h
                    exact absurd h (fun h => no_append_in_single_get _ _ _ _ h)
                  · have : (downloadPDFFile (.resp status statusText ct
                        (.ok written)) createOk writeOk finalURL
                        outputDirectory filename logFilePath st).state = st := by
                      simp [downloadPDFFile, h1, h2, hs, hct, hw, hc]
                    rwa [this] at hu
          · refine ⟨fun pre post line h => ?_, fun u hu => Or.inl ?_⟩
            · rw [show (downloadPDFFile (.resp status statusText ct body)
                  createOk writeOk finalURL outputDirectory filename
                  logFilePath st).events = [Event.httpGet finalURL] by
                simp [downloadPDFFile, h1, h2, hs, hct]] at h
              exact absurd h (fun h => no_append_in_single_get _ _ _ _ h)
            · have : (downloadPDFFile (.resp status statusText ct body)
                  createOk writeOk finalURL outputDirectory filename
                  logFilePath st).state = st := by
                simp [downloadPDFFile, h1, h2, hs, hct]
              rwa [this] at hu
        · refine ⟨fun pre post line h => ?_, fun u hu => Or.inl ?_⟩
          · rw [show (downloadPDFFile (.resp status statusText ct body)
                createOk writeOk finalURL outputDirectory filename
                logFilePath st).events = [Event.httpGet finalURL] by
              simp [downloadPDFFile, h1, h2, hs]] at h
            exact absurd h (fun h => no_append_in_single_get _ _ _ _ h)
          · have : (downloadPDFFile (.resp status statusText ct body)
                createOk writeOk finalURL outputDirectory filename
                logFilePath st).state = st := by
              simp [downloadPDFFile, h1, h2, hs]
            rwa [this] at hu

/-- Witness for C2: in a concrete successful fetch the trace is GET, file
write, ledger append, and the theorem instantiated at that trace places the
file write before the append. -/
theorem c2_file_written_before_ledger_entry_witness :
    (downloadPDFFile (.resp 200 "200 OK" "application/pdf" (.ok 5)) true true
        "https://host/a.pdf" "PDFs" "a.pdf" "download.txt"
        ⟨[], [], []⟩).events
      = [Event.httpGet "https://host/a.pdf", Event.fileWrite "PDFs/a.pdf"]
          ++ Event.ledgerAppend "https://host/a.pdf → PDFs/a.pdf" :: [] ∧
    (joinPath "PDFs" (urlToFilename "a.pdf")
        ∈ (⟨[], [], []⟩ : WorldState).disk
      ∨ Event.fileWrite (joinPath "PDFs" (urlToFilename "a.pdf"))
          ∈ [Event.httpGet "https://host/a.pdf",
             Event.fileWrite "PDFs/a.pdf"]) :=
  ⟨by decide,
   (c2_file_written_before_ledger_entry
      (.resp 200 "200 OK" "application/pdf" (.ok 5)) true true
      "https://host/a.pdf" "PDFs" "a.pdf" "download.txt" ⟨[], [], []⟩).1
     [Event.httpGet "https://host/a.pdf", Event.fileWrite "PDFs/a.pdf"] []
     "https://host/a.pdf → PDFs/a.pdf" (by decide)⟩

/-! ### Claim C10 — substring-based resume check of the `part_000` variant -/

/-- C10: in the `part_000` variant, an item whose URL occurs anywhere inside
the ledger file text — also as a prefix of a longer recorded URL or inside a
recorded path — is treated as already downloaded: the loop iteration
performs no HTTP request and leaves the world unchanged. -/
theorem c10_substring_resume_skips (net : Nat → String → NetResult)
    (createOk writeOk : Bool) (k : Nat) (url : String) (st : World0)
    (h : containsSubstr st.ledgerText url = true) :
    part0ProcessItem net createOk writeOk k url st = (st, k, []) := by
  simp [part0ProcessItem, h]

/-- Witness for C10: the URL `https://host/ab` was never recorded — the
ledger records only `https://host/abc.pdf` — yet its iteration is skipped,
because the URL is a prefix of the recorded one and so a substring of the
ledger text. -/
theorem c10_substring_resume_skips_witness :
    containsSubstr "https://host/abc.pdf → PDFs/x.pdf\n" "https://host/ab"
        = true ∧
    part0ProcessItem (fun _ _ => .netErr "unreachable") true true 0
        "https://host/ab" ⟨[], "https://host/abc.pdf → PDFs/x.pdf\n"⟩
      = (⟨[], "https://host/abc.pdf → PDFs/x.pdf\n"⟩, 0, []) :=
  ⟨by decide,
   c10_substring_resume_skips (fun _ _ => .netErr "unreachable") true true 0
     "https://host/ab" ⟨[], "https://host/abc.pdf → PDFs/x.pdf\n"⟩
     (by decide)⟩

/-! ### Claim C3 — 429 backoff policy -/

/-- Counterexample to C3 as stated: in the `part_000` variant of the
Orchestrator (one of the claim's two cited sources) a first attempt that
fails with a 429-signature error is followed by the cooldown sleep but by
NO retry within the run: the trace holds exactly one HTTP GET and one
sleep, refuting "retries that same item exactly once more within the run"
(a retry would require a second GET). -/
theorem c3_part0_sleeps_but_never_retries :
    part0ProcessItem
        (fun _ _ => .resp 429 "429 Too Many Requests" "text/html" (.ok 7))
        true true 0 "https://host/a.pdf" ⟨[], ""⟩
      = (⟨[], ""⟩, 1,
         [Event.httpGet "https://host/a.pdf", Event.sleepMin 3]) := by
  decide

/-- Trace counts distribute over concatenation. -/
theorem countSleeps_append (a b : List Event) :
    countSleeps (a ++ b) = countSleeps a + countSleeps b :=
  List.countP_append _ _ _

/-- Trace counts distribute over concatenation. -/
theorem countGets_append (a b : List Event) :
    countGets (a ++ b) = countGets a + countGets b :=
  List.countP_append _ _ _


/-- Amended C3, `main.go` variant: when the first attempt fails with an error
whose text contains `"429"`, the loop sleeps exactly one 3-minute cooldown
and performs exactly one retry (its outcome taken as final, no third
attempt); an error without the 429 signature, or success, triggers no sleep
and no retry; in every case at most two GETs and at most one sleep occur. -/
theorem c3_main_orchestrator_single_retry (net : Nat → String → NetResult)
    (createOk writeOk : Bool) (k : Nat) (item : ValidDownloadItem)
    (st : WorldState) :
    (∀ e, (firstTry net createOk writeOk k item st).err = some e →
        containsSubstr e "429" = true →
        processItem net createOk writeOk k item st =
          ((retryTry net createOk writeOk k item st).state,
           k + countGets (firstTry net createOk writeOk k item st).events
             + countGets (retryTry net createOk writeOk k item st).events,
           (firstTry net createOk writeOk k item st).events
             ++ [Event.sleepMin 3]
             ++ (retryTry net createOk writeOk k item st).events)
        ∧ countSleeps (processItem net createOk writeOk k item st).2.2 = 1)
    ∧ (∀ e, (firstTry net createOk writeOk k item st).err = some e →
        containsSubstr e "429" = false →
        processItem net createOk writeOk k item st =
          ((firstTry net createOk writeOk k item st).state,
           k + countGets (firstTry net createOk writeOk k item st).events,
           (firstTry net createOk writeOk k item st).events)
        ∧ countSleeps (processItem net createOk writeOk k item st).2.2 = 0)
    ∧ ((firstTry net createOk writeOk k item st).err = none →
        processItem net createOk writeOk k item st =
          ((firstTry net createOk writeOk k item st).state,
           k + countGets (firstTry net createOk writeOk k item st).events,
           (firstTry net createOk writeOk k item st).events)
        ∧ countSleeps (processItem net createOk writeOk k item st).2.2 = 0)
    ∧ countGets (processItem net createOk writeOk k item st).2.2 ≤ 2
    ∧ countSleeps (processItem net createOk writeOk k item st).2.2 ≤ 1 := by
  have s1 := dl_no_sleep (net k item.url) createOk writeOk item.url "PDFs"
    item.fileName "download.txt" st
  have g1 := dl_gets_le_one (net k item.url) createOk writeOk item.url "PDFs"
    item.fileName "download.txt" st
  have s2 := dl_no_sleep
    (net (k + countGets (firstTry net createOk writeOk k item st).events)
      item.url) createOk writeOk item.url "PDFs" item.fileName "download.txt"
    (firstTry net createOk writeOk k item st).state
  have g2 := dl_gets_le_one
    (net (k + countGets (firstTry net createOk writeOk k item st).events)
      item.url) createOk writeOk item.url "PDFs" item.fileName "download.txt"
    (firstTry net createOk writeOk k item st).state
  simp only [firstTry] at s2 g2
  have hone : countSleeps [Event.sleepMin 3] = 1 := rfl
  have hzero : countGets [Event.sleepMin 3] = 0 := rfl
  refine ⟨?_, ?_, ?_, ?_, ?_⟩
  · intro e herr h429
    have herr' : (downloadPDFFile (net k item.url) createOk writeOk item.url
        "PDFs" item.fileName "download.txt" st).err = some e := herr
    have hp : processItem net createOk writeOk k item st
        = ((retryTry net createOk writeOk k item st).state,
           k + countGets (firstTry net createOk writeOk k item st).events
             + countGets (retryTry net createOk writeOk k item st).events,
           (firstTry net createOk writeOk k item st).events
             ++ [Event.sleepMin 3]
             ++ (retryTry net createOk writeOk k item st).events) := by
      simp only [processItem, herr', h429, if_true]
      simp [firstTry, retryTry]
    refine ⟨hp, ?_⟩
    rw [hp]
    simp only [countSleeps_append, hone]
    simp only [firstTry, retryTry] at s2 ⊢
    omega
  · intro e herr h429
    have herr' : (downloadPDFFile (net k item.url) createOk writeOk item.url
        "PDFs" item.fileName "download.txt" st).err = some e := herr
    have hp : processItem net createOk writeOk k item st
        = ((firstTry net createOk writeOk k item st).state,
           k + countGets (firstTry net createOk writeOk k item st).events,
           (firstTry net createOk writeOk k item st).events) := by
      simp only [processItem, herr', h429, if_false]
      simp [firstTry]
    refine ⟨hp, ?_⟩
    rw [hp]
    simpa [firstTry] using s1
  · intro herr
    have herr' : (downloadPDFFile (net k item.url) createOk writeOk item.url
        "PDFs" item.fileName "download.txt" st).err = none := herr
    have hp : processItem net createOk writeOk k item st
        = ((firstTry net createOk writeOk k item st).state,
           k + countGets (firstTry net createOk writeOk k item st).events,
           (firstTry net createOk writeOk k item st).events) := by
      simp only [processItem, herr']
      simp [firstTry]
    refine ⟨hp, ?_⟩
    rw [hp]
    simpa [firstTry] using s1
  · cases herr : (downloadPDFFile (net k item.url) createOk writeOk item.url
        "PDFs" item.fileName "download.txt" st).err with
    | none =>
      simp only [processItem, herr]
      omega
    | some e =>
      by_cases h429 : containsSubstr e "429"
      · simp only [processItem, herr, h429, if_true]
        simp only [countGets_append, hzero, firstTry] at *
        omega
      · simp only [processItem, herr, h429, Bool.false_eq_true, if_false]
        omega
  · cases herr : (downloadPDFFile (net k item.url) createOk writeOk item.url
        "PDFs" item.fileName "download.txt" st).err with
    | none =>
      simp only [processItem, herr]
      omega
    | some e =>
      by_cases h429 : containsSubstr e "429"
      · simp only [processItem, herr, h429, if_true]
        simp only [countSleeps_append, hone, firstTry] at *
        omega
      · simp only [processItem, herr, h429, Bool.false_eq_true, if_false]
        omega


/-- Witness for the amended C3 at a concrete input: the first attempt fails
with the 429-signature error, and the loop sleeps once and retries once. -/
theorem c3_main_orchestrator_single_retry_witness :
    (firstTry c3net true true 0 c3item ⟨[], [], []⟩).err
        = some "download failed for https://host/a.pdf: 429 Too Many Requests"
      ∧ containsSubstr
          "download failed for https://host/a.pdf: 429 Too Many Requests"
          "429" = true
      ∧ (processItem c3net true true 0 c3item ⟨[], [], []⟩ =
          ((retryTry c3net true true 0 c3item ⟨[], [], []⟩).state,
           0 + countGets (firstTry c3net true true 0 c3item ⟨[], [], []⟩).events
             + countGets (retryTry c3net true true 0 c3item ⟨[], [], []⟩).events,
           (firstTry c3net true true 0 c3item ⟨[], [], []⟩).events
             ++ [Event.sleepMin 3]
             ++ (retryTry c3net true true 0 c3item ⟨[], [], []⟩).events)
        ∧ countSleeps
            (processItem c3net true true 0 c3item ⟨[], [], []⟩).2.2 = 1) :=
  ⟨by decide, by decide,
   (c3_main_orchestrator_single_retry c3net true true 0 c3item ⟨[], [], []⟩).1
     "download failed for https://host/a.pdf: 429 Too Many Requests"
     (by decide) (by decide)⟩

/-! ### Claim C7 — Extractor deduplication -/

/-- The accumulator of `parseLoop` is only appended to. -/
theorem parseLoop_acc (seen : List String) (acc : List ValidDownloadItem)
    (vs : List PDFVariant) :
    parseLoop seen acc vs = acc ++ parseLoop seen [] vs := by
  induction vs generalizing seen acc with
  | nil => simp [parseLoop]
  | cons v vs ih =>
    by_cases hv : isValidDownloadURL v.downloadURL
    · by_cases hs : v.downloadURL ∈ seen
      · simp only [parseLoop, hv, if_true, hs]
        exact ih seen acc
      · simp only [parseLoop, hv, if_true, hs, if_false]
        rw [ih _ (acc ++ _), ih _ ([] ++ _)]
        simp
    · simp only [parseLoop, hv, Bool.false_eq_true, if_false]
      exact ih seen acc

/-- Every item `parseLoop` emits has a URL outside the starting seen set. -/
theorem parseLoop_not_seen (seen : List String) (vs : List PDFVariant) :
    ∀ it ∈ parseLoop seen [] vs, it.url ∉ seen := by
  induction vs generalizing seen with
  | nil => simp [parseLoop]
  | cons v vs ih =>
    intro it hit
    by_cases hv : isValidDownloadURL v.downloadURL
    · by_cases hs : v.downloadURL ∈ seen
      · exact ih seen it (by simpa [parseLoop, hv, hs] using hit)
      · rw [parseLoop, if_pos hv, if_neg hs, parseLoop_acc] at hit
        rcases List.mem_append.1 hit with hit' | hit'
        · obtain rfl : it = ⟨v.downloadURL, v.fileName⟩ := by simpa using hit'
          exact hs
        · intro hmem
          exact ih (v.downloadURL :: seen) it hit' (List.mem_cons_of_mem _ hmem)
    · exact ih seen it (by simpa [parseLoop, hv] using hit)

/-- The URLs `parseLoop` emits are pairwise distinct. -/
theorem parseLoop_nodup (seen : List String) (vs : List PDFVariant) :
    ((parseLoop seen [] vs).map ValidDownloadItem.url).Nodup := by
  induction vs generalizing seen with
  | nil => simp [parseLoop]
  | cons v vs ih =>
    by_cases hv : isValidDownloadURL v.downloadURL
    · by_cases hs : v.downloadURL ∈ seen
      · simpa [parseLoop, hv, hs] using ih seen
      · rw [parseLoop, if_pos hv, if_neg hs, parseLoop_acc]
        simp only [List.nil_append, List.map_append, List.map_cons,
          List.map_nil]
        rw [List.nodup_append]
        refine ⟨List.nodup_singleton _, ih _, ?_⟩
        intro u hu hu'
        simp only [List.mem_singleton] at hu
        subst hu
        obtain ⟨it, hit, hurl⟩ := List.exists_of_mem_map hu'
        have hmem : it.url ∈ v.downloadURL :: seen := by
          rw [hurl]
          exact List.mem_cons_self _ _
        exact parseLoop_not_seen _ _ it hit hmem
    · simpa [parseLoop, hv] using ih seen

/-- `parseLoop` emits a subsequence of the valid variants, in order, with the
first occurrence's file name. -/
theorem parseLoop_sublist (seen : List String) (vs : List PDFVariant) :
    ((parseLoop seen [] vs).map (fun it => (it.url, it.fileName))).Sublist
      ((vs.filter (fun v => isValidDownloadURL v.downloadURL)).map
        (fun v => (v.downloadURL, v.fileName))) := by
  induction vs generalizing seen with
  | nil => simp [parseLoop]
  | cons v vs ih =>
    by_cases hv : isValidDownloadURL v.downloadURL
    · by_cases hs : v.downloadURL ∈ seen
      · rw [parseLoop, if_pos hv, if_pos hs,
          List.filter_cons_of_pos (by simpa using hv)]
        simp only [List.map_cons]
        exact (ih seen).trans (List.sublist_cons_self _ _)
      · rw [parseLoop, if_pos hv, if_neg hs, parseLoop_acc,
          List.filter_cons_of_pos (by simpa using hv)]
        simp only [List.nil_append, List.map_append, List.map_cons,
          List.map_nil, List.singleton_append]
        exact List.Sublist.cons₂ _ (ih (v.downloadURL :: seen))
    · rw [parseLoop, if_neg (by simpa using hv),
        List.filter_cons_of_neg (by simpa using hv)]
      exact ih seen

/-- First occurrence wins: each emitted item is the first valid variant of
its URL, with that variant's file name. -/
theorem parseLoop_find (seen : List String) (vs : List PDFVariant) :
    ∀ it ∈ parseLoop seen [] vs,
      vs.find? (fun v => isValidDownloadURL v.downloadURL
          && v.downloadURL == it.url) = some ⟨it.url, it.fileName⟩ := by
  induction vs generalizing seen with
  | nil => simp [parseLoop]
  | cons v vs ih =>
    intro it hit
    by_cases hv : isValidDownloadURL v.downloadURL
    · by_cases hs : v.downloadURL ∈ seen
      · rw [parseLoop, if_pos hv, if_pos hs] at hit
        have hne : v.downloadURL ≠ it.url := by
          intro heq
          exact parseLoop_not_seen seen vs it hit (heq ▸ hs)
        rw [List.find?_cons_of_neg _ (by simp [hne]), ih seen it hit]
      · rw [parseLoop, if_pos hv, if_neg hs, parseLoop_acc] at hit
        rcases List.mem_append.1 hit with hit' | hit'
        · obtain rfl : it = ⟨v.downloadURL, v.fileName⟩ := by simpa using hit'
          rw [List.find?_cons_of_pos _ (by simp [hv])]
        · have hne : v.downloadURL ≠ it.url := by
            intro heq
            exact parseLoop_not_seen _ vs it hit'
              (heq ▸ List.mem_cons_self _ _)
          rw [List.find?_cons_of_neg _ (by simp [hne]),
            ih (v.downloadURL :: seen) it hit']
    · rw [parseLoop, if_neg (by simpa using hv)] at hit
      rw [List.find?_cons_of_neg _ (by simp [hv]), ih seen it hit]

/-- C7: for every decoded page, the Extractor's output has pairwise-distinct
URLs; the output's (url, name) pairs form a subsequence of the valid
variants in traversal order (insertion order preserved); each output item is
the FIRST valid variant carrying its URL, so the first occurrence's
suggested name is kept; and a page with two variants sharing one URL yields
exactly one item. -/
theorem c7_extractor_dedup :
    (∀ data : JSONDataRoot,
        ((parseJSONForDownloads data).map ValidDownloadItem.url).Nodup
      ∧ ((parseJSONForDownloads data).map
            (fun it => (it.url, it.fileName))).Sublist
          (((joinVariants data).filter
              (fun v => isValidDownloadURL v.downloadURL)).map
            (fun v => (v.downloadURL, v.fileName)))
      ∧ (∀ it ∈ parseJSONForDownloads data,
          (joinVariants data).find? (fun v => isValidDownloadURL v.downloadURL
              && v.downloadURL == it.url) = some ⟨it.url, it.fileName⟩))
    ∧ parseJSONForDownloads
        ⟨[⟨[⟨"https://host/file.pdf", "first.pdf"⟩,
            ⟨"https://host/file.pdf", "second.pdf"⟩]⟩]⟩
      = [⟨"https://host/file.pdf", "first.pdf"⟩] :=
  ⟨fun data =>
    ⟨parseLoop_nodup [] (joinVariants data),
     parseLoop_sublist [] (joinVariants data),
     fun it hit => parseLoop_find [] (joinVariants data) it hit⟩,
   by decide⟩

/-- Witness for C7: on the duplicate page the single output item is the
first variant of its URL, name included. -/
theorem c7_extractor_dedup_witness :
    (⟨"https://host/file.pdf", "first.pdf"⟩ : ValidDownloadItem)
        ∈ parseJSONForDownloads
          ⟨[⟨[⟨"https://host/file.pdf", "first.pdf"⟩,
              ⟨"https://host/file.pdf", "second.pdf"⟩]⟩]⟩ ∧
    (joinVariants
        ⟨[⟨[⟨"https://host/file.pdf", "first.pdf"⟩,
            ⟨"https://host/file.pdf", "second.pdf"⟩]⟩]⟩).find?
      (fun v => isValidDownloadURL v.downloadURL
          && v.downloadURL == "https://host/file.pdf")
      = some ⟨"https://host/file.pdf", "first.pdf"⟩ :=
  ⟨by decide,
   (c7_extractor_dedup.1
      ⟨[⟨[⟨"https://host/file.pdf", "first.pdf"⟩,
          ⟨"https://host/file.pdf", "second.pdf"⟩]⟩]⟩).2.2
     ⟨"https://host/file.pdf", "first.pdf"⟩ (by decide)⟩

/-! ### Claim C6 — Extractor URL validation -/

/-- Every item the `main.go` extractor emits passed `isValidDownloadURL`. -/
theorem parseLoop_valid (seen : List String) (vs : List PDFVariant) :
    ∀ it ∈ parseLoop seen [] vs, isValidDownloadURL it.url = true := by
  induction vs generalizing seen with
  | nil => simp [parseLoop]
  | cons v vs ih =>
    intro it hit
    by_cases hv : isValidDownloadURL v.downloadURL
    · by_cases hs : v.downloadURL ∈ seen
      · exact ih seen it (by simpa [parseLoop, hv, hs] using hit)
      · rw [parseLoop, if_pos hv, if_neg hs, parseLoop_acc] at hit
        rcases List.mem_append.1 hit with hit' | hit'
        · obtain rfl : it = ⟨v.downloadURL, v.fileName⟩ := by simpa using hit'
          exact hv
        · exact ih _ it hit'
    · exact ih seen it (by simpa [parseLoop, hv] using hit)

/-- Counterexample to C6 as stated: the `part_000` variant of the Extractor
(one of the claim's two cited sources) validates with `url.ParseRequestURI`,
which accepts any absolute URI, so the variant with
`downloadUrl = "ftp://x/y.pdf"` is KEPT, not dropped. -/
theorem c6_part0_extractor_keeps_ftp :
    extractDownloadURLsFromJSON ⟨[⟨[⟨"ftp://x/y.pdf"⟩]⟩]⟩
      = ["ftp://x/y.pdf"] := by
  decide

/-- Amended C6: the `main.go` Extractor keeps a variant's URL only if it
parses with a nonempty host and (lowercased) scheme `http` or `https` — in
particular `"ftp://x/y.pdf"` and `""` are dropped and
`"https://host/file.pdf"` is kept — while the `part_000` Extractor keeps
everything `url.ParseRequestURI` accepts: it keeps `"ftp://x/y.pdf"` and
drops only `""`. -/
theorem c6_extractor_validation_amended :
    (∀ data : JSONDataRoot, ∀ it ∈ parseJSONForDownloads data,
        ∃ u : GoURL, parseURL false it.url.data = some u ∧ u.host ≠ []
          ∧ (lowerL u.scheme = "http".data ∨ lowerL u.scheme = "https".data))
    ∧ parseJSONForDownloads
        ⟨[⟨[⟨"ftp://x/y.pdf", "n1"⟩, ⟨"", "n2"⟩,
            ⟨"https://host/file.pdf", "n3"⟩]⟩]⟩
      = [⟨"https://host/file.pdf", "n3"⟩]
    ∧ extractDownloadURLsFromJSON ⟨[⟨[⟨"ftp://x/y.pdf"⟩, ⟨""⟩]⟩]⟩
      = ["ftp://x/y.pdf"] := by
  refine ⟨?_, by decide, by decide⟩
  intro data it hit
  have hv := parseLoop_valid [] (joinVariants data) it hit
  unfold isValidDownloadURL at hv
  cases hp : parseURL false it.url.data with
  | none => rw [hp] at hv; simp at hv
  | some u =>
    by_cases h1 : u.scheme = []
    · rw [hp] at hv; simp [h1] at hv
    · by_cases h2 : u.host = []
      · rw [hp] at hv; simp [h2] at hv
      · rw [hp] at hv
        simp [h1, h2] at hv
        exact ⟨u, rfl, h2, by simpa using hv⟩

/-- Witness for the amended C6: the kept item of the concrete page indeed
parses with scheme `https` and host `host`. -/
theorem c6_extractor_validation_amended_witness :
    (⟨"https://host/file.pdf", "n3"⟩ : ValidDownloadItem)
        ∈ parseJSONForDownloads
            ⟨[⟨[⟨"ftp://x/y.pdf", "n1"⟩, ⟨"", "n2"⟩,
                ⟨"https://host/file.pdf", "n3"⟩]⟩]⟩ ∧
    (∃ u : GoURL,
        parseURL false
            ("https://host/file.pdf" : String).data = some u ∧ u.host ≠ []
          ∧ (lowerL u.scheme = "http".data
              ∨ lowerL u.scheme = "https".data)) :=
  ⟨by decide,
   c6_extractor_validation_amended.1
     ⟨[⟨[⟨"ftp://x/y.pdf", "n1"⟩, ⟨"", "n2"⟩,
         ⟨"https://host/file.pdf", "n3"⟩]⟩]⟩
     ⟨"https://host/file.pdf", "n3"⟩ (by decide)⟩

/-! ### Claim C9 — Filename Sanitizer contract -/

/-- Counterexample to C9 as stated: the `main.go` sanitizer is NOT
collision-resistant — two distinct URLs with the same final path segment
yield the same local filename. -/
theorem c9_sanitizer_collision :
    ("https://a.com/file.pdf" : String) ≠ "https://b.com/other/file.pdf"
    ∧ urlToFilename "https://a.com/file.pdf"
        = urlToFilename "https://b.com/other/file.pdf" := by
  constructor <;> decide

/-- A hex digit is never a dot or a slash. -/
theorem hexDigit_safe (n : Nat) (h : n < 16) :
    hexDigit n ≠ '.' ∧ hexDigit n ≠ '/' := by
  interval_cases n <;> exact ⟨by decide, by decide⟩

/-- Every character of a SHA-256 hex digest is a hex digit, hence never a
dot or a slash. -/
theorem generateHash_char_safe (s : String) :
    ∀ c ∈ (generateHash s).data, c ≠ '.' ∧ c ≠ '/' := by
  intro c hc
  have hc' : c ∈ ((((chunks64 (sha256Pad (strBytes s))).foldl compressBlock
      sha256H0).map wordBytes).flatten.map byteToHex).flatten := hc
  obtain ⟨pair, hpair, hcp⟩ := List.mem_flatten.1 hc'
  obtain ⟨b, _, rfl⟩ := List.mem_map.1 hpair
  rcases (by simpa [byteToHex] using hcp : c = hexDigit (b / 16 % 16)
      ∨ c = hexDigit (b % 16)) with rfl | rfl
  · exact hexDigit_safe _ (Nat.mod_lt _ (by omega))
  · exact hexDigit_safe _ (Nat.mod_lt _ (by omega))

/-- A list without dots or slashes has no file extension. -/
theorem fileExtAux_nil (l : List Char)
    (h : ∀ c ∈ l, c ≠ '.' ∧ c ≠ '/') : ∀ acc, fileExtAux l acc = [] := by
  induction l with
  | nil => intro acc; rfl
  | cons c rest ih =>
    intro acc
    have hc := h c (List.mem_cons_self _ _)
    rw [fileExtAux, if_neg hc.2, if_neg hc.1]
    exact ih (fun d hd => h d (List.mem_cons_of_mem _ hd)) _

/-- The SHA-256 hex digest has no extension in the `filepath.Ext` sense. -/
theorem generateHash_ext_nil (s : String) :
    getFileExtension (generateHash s).data = [] := by
  unfold getFileExtension
  exact fileExtAux_nil _
    (fun c hc => generateHash_char_safe s c (List.mem_reverse.1 hc)) _

/-- Amended C9: the sanitizer is stable (it is a pure function of its
input); the `main.go` sanitizer's output ends in `.pdf` whenever the
lowercased input's `filepath.Ext` is `.pdf` (it reuses the input's own
extension, so an extension-less input yields no `.pdf`); the `part_000`
SHA-256 sanitizer's output ends in `.pdf` for every input; and
collision-resistance fails for the `main.go` sanitizer: two distinct URLs
sharing a final path segment collide. -/
theorem c9_sanitizer_amended :
    (∀ s : String, urlToFilename s = urlToFilename s)
    ∧ (∀ s : String, getFileExtension (lowerL s.data) = ".pdf".data →
        ".pdf".data <:+ (urlToFilename s).data)
    ∧ (∀ s : String, ".pdf".data <:+ (urlToFilename0 s).data)
    ∧ (("https://a.com/file.pdf" : String) ≠ "https://b.com/other/file.pdf"
        ∧ urlToFilename "https://a.com/file.pdf"
            = urlToFilename "https://b.com/other/file.pdf") := by
  refine ⟨fun s => rfl, ?_, ?_, by decide, by decide⟩
  · intro s h
    show ".pdf".data <:+ urlToFilenameL s.data
    rw [urlToFilenameL]
    simp only [h]
    exact List.suffix_append _ _
  · intro s
    have hext : getFileExtension (generateHash s).data ≠ ".pdf".data := by
      rw [generateHash_ext_nil]
      decide
    show ".pdf".data <:+ lowerL
      ((if getFileExtension (generateHash s).data ≠ ".pdf".data
        then generateHash s ++ ".pdf" else generateHash s).data)
    rw [if_pos hext]
    have : (generateHash s ++ ".pdf").data
        = (generateHash s).data ++ ".pdf".data := String.data_append _ _
    rw [this, lowerL, List.map_append]
    have hlow : ".pdf".data.map Char.toLower = ".pdf".data := by decide
    rw [hlow]
    exact List.suffix_append _ _

/-- Witness for the amended C9: a URL ending in `.pdf` sanitizes to a name
ending in `.pdf`. -/
theorem c9_sanitizer_amended_witness :
    getFileExtension (lowerL ("https://x/a.pdf" : String).data)
        = ".pdf".data ∧
    ".pdf".data <:+ (urlToFilename "https://x/a.pdf").data :=
  ⟨by decide, c9_sanitizer_amended.2.1 "https://x/a.pdf" (by decide)⟩

/-! ### Claim C1 — idempotence of the pipeline -/

/-- A loop iteration whose item is in the Ledger set or whose file is on
disk performs no GET, leaves the disk unchanged, and only grows the Ledger
set. -/
theorem processItem_skip (net : Nat → String → NetResult)
    (createOk writeOk : Bool) (k : Nat) (item : ValidDownloadItem)
    (st : WorldState)
    (h : item.url ∈ st.ledgerSet
        ∨ joinPath "PDFs" (urlToFilename item.fileName) ∈ st.disk) :
    countGets (processItem net createOk writeOk k item st).2.2 = 0
    ∧ (processItem net createOk writeOk k item st).1.disk = st.disk
    ∧ ∀ u ∈ st.ledgerSet,
        u ∈ (processItem net createOk writeOk k item st).1.ledgerSet := by
  by_cases h1 : item.url ∈ st.ledgerSet
  · have hd := dl_ledger_hit (net k item.url) createOk writeOk item.url
      "PDFs" item.fileName "download.txt" st h1
    refine ⟨?_, ?_, ?_⟩ <;> simp [processItem, hd, countGets]
  · rcases h with h | h2
    · exact absurd h h1
    · have hd := dl_file_exists (net k item.url) createOk writeOk item.url
        "PDFs" item.fileName "download.txt" st h1 h2
      refine ⟨?_, ?_, ?_⟩
      · simp [processItem, hd, countGets]
      · simp [processItem, hd]
      · intro u hu
        simp [processItem, hd]
        exact Or.inl hu

/-- An item loop all of whose items are recorded or present on disk performs
no GET. -/
theorem processItems_skip (net : Nat → String → NetResult)
    (createOk writeOk : Bool) (k : Nat) (items : List ValidDownloadItem)
    (st : WorldState)
    (h : ∀ it ∈ items, it.url ∈ st.ledgerSet
        ∨ joinPath "PDFs" (urlToFilename it.fileName) ∈ st.disk) :
    countGets (processItems net createOk writeOk k items st).2.2 = 0
    ∧ (processItems net createOk writeOk k items st).1.disk = st.disk
    ∧ ∀ u ∈ st.ledgerSet,
        u ∈ (processItems net createOk writeOk k items st).1.ledgerSet := by
  induction items generalizing k st with
  | nil => exact ⟨rfl, rfl, fun u hu => hu⟩
  | cons it rest ih =>
    obtain ⟨g1, d1, l1⟩ := processItem_skip net createOk writeOk k it st
      (h it (List.mem_cons_self _ _))
    have hrest : ∀ it' ∈ rest,
        it'.url ∈ (processItem net createOk writeOk k it st).1.ledgerSet
          ∨ joinPath "PDFs" (urlToFilename it'.fileName)
              ∈ (processItem net createOk writeOk k it st).1.disk := by
      intro it' hit'
      rcases h it' (List.mem_cons_of_mem _ hit') with h' | h'
      · exact Or.inl (l1 _ h')
      · rw [d1]
        exact Or.inr h'
    obtain ⟨g2, d2, l2⟩ := ih (processItem net createOk writeOk k it st).2.1
      (processItem net createOk writeOk k it st).1 hrest
    refine ⟨?_, ?_, ?_⟩
    · simp only [processItems, countGets_append, g1, g2]
    · simpa only [processItems, d2] using d1
    · intro u hu
      exact l2 u (l1 u hu)

/-- A page loop all of whose extracted items are recorded or present on disk
performs no GET. -/
theorem runPages_skip (net : Nat → String → NetResult)
    (createOk writeOk : Bool) (k : Nat) (pages : List JSONDataRoot)
    (st : WorldState)
    (h : ∀ page ∈ pages, ∀ it ∈ parseJSONForDownloads page,
        it.url ∈ st.ledgerSet
          ∨ joinPath "PDFs" (urlToFilename it.fileName) ∈ st.disk) :
    countGets (runPages net createOk writeOk k pages st).2.2 = 0
    ∧ (runPages net createOk writeOk k pages st).1.disk = st.disk
    ∧ ∀ u ∈ st.ledgerSet,
        u ∈ (runPages net createOk writeOk k pages st).1.ledgerSet := by
  induction pages generalizing k st with
  | nil => exact ⟨rfl, rfl, fun u hu => hu⟩
  | cons page rest ih =>
    obtain ⟨g1, d1, l1⟩ := processItems_skip net createOk writeOk k
      (parseJSONForDownloads page) st (h page (List.mem_cons_self _ _))
    have hrest : ∀ page' ∈ rest, ∀ it ∈ parseJSONForDownloads page',
        it.url ∈ (processItems net createOk writeOk k
            (parseJSONForDownloads page) st).1.ledgerSet
          ∨ joinPath "PDFs" (urlToFilename it.fileName)
              ∈ (processItems net createOk writeOk k
                  (parseJSONForDownloads page) st).1.disk := by
      intro page' hp' it hit
      rcases h page' (List.mem_cons_of_mem _ hp') it hit with h' | h'
      · exact Or.inl (l1 _ h')
      · rw [d1]
        exact Or.inr h'
    obtain ⟨g2, d2, l2⟩ := ih
      (processItems net createOk writeOk k (parseJSONForDownloads page) st).2.1
      (processItems net createOk writeOk k (parseJSONForDownloads page) st).1
      hrest
    refine ⟨?_, ?_, ?_⟩
    · simp only [runPages, countGets_append, g1, g2]
    · simpa only [runPages, d2] using d1
    · intro u hu
      exact l2 u (l1 u hu)


/-- Counterexample to C1 as stated: against an upstream whose single item
persistently fails with 404, the first run completes having abandoned the
item (a 404 is not retried), the Ledger and output directory are unchanged,
and the second run against that very state performs ONE further download
GET, not zero. -/
theorem c1_second_run_refetches_failed_item :
    countGets (runPages c1Net true true
        (runPages c1Net true true 0 c1Pages ⟨[], [], []⟩).2.1 c1Pages
        (runPages c1Net true true 0 c1Pages ⟨[], [], []⟩).1).2.2 = 1 := by
  decide

/-- Amended C1: the second run performs zero download GETs PROVIDED the
first run left every extracted item's URL in the Ledger set or its derived
file on disk (as a completed run in which no item was abandoned does); a run
may leave a failed item unrecorded, and such an item is fetched again on the
next run, as the counterexample shows. -/
theorem c1_second_run_zero_fetches_when_recorded
    (net : Nat → String → NetResult) (createOk writeOk : Bool) (k : Nat)
    (pages : List JSONDataRoot) (st : WorldState)
    (h : ∀ page ∈ pages, ∀ it ∈ parseJSONForDownloads page,
        it.url ∈ st.ledgerSet
          ∨ joinPath "PDFs" (urlToFilename it.fileName) ∈ st.disk) :
    countGets (runPages net createOk writeOk k pages st).2.2 = 0 :=
  (runPages_skip net createOk writeOk k pages st h).1

/-- Witness for the amended C1: with the item's URL already in the Ledger
set, a full run performs zero GETs. -/
theorem c1_second_run_zero_fetches_when_recorded_witness :
    (∀ page ∈ c1Pages, ∀ it ∈ parseJSONForDownloads page,
        it.url ∈ (⟨[], [], ["https://host/a.pdf"]⟩ : WorldState).ledgerSet
          ∨ joinPath "PDFs" (urlToFilename it.fileName)
              ∈ (⟨[], [], ["https://host/a.pdf"]⟩ : WorldState).disk) ∧
    countGets (runPages c1Net true true 0 c1Pages
        ⟨[], [], ["https://host/a.pdf"]⟩).2.2 = 0 :=
  ⟨by decide,
   c1_second_run_zero_fetches_when_recorded c1Net true true 0 c1Pages
     ⟨[], [], ["https://host/a.pdf"]⟩ (by decide)⟩
